import Mathlib

/-!
Shallow embedding of the extract-and-cache layer of the nebula-bridge
repository (the two-tier caching HTTP fetcher in `app/extract/api_client.py`
and the pagination walker in `app/etl.py`), together with theorems settling
the specification claims about it.
-/

set_option maxHeartbeats 1000000

namespace NebulaBridge

/-- JSON values, as produced by `json.loads`.  Numbers are modelled as
integers (the payloads handled by the cache layer carry integral timestamps,
counts and ids). -/
inductive Json where
  | null
  | bool (b : Bool)
  | num (n : Int)
  | str (s : String)
  | arr (elems : List Json)
  | obj (fields : List (String × Json))
deriving Repr

/-- A raw string held by the shared (Redis) cache: either the serialization
`json.dumps j` of a JSON value (which always parses back to `j`), or a
corrupt string on which `json.loads` raises `JSONDecodeError`. -/
inductive Raw where
  | wellFormed (j : Json)
  | corrupt (s : String)
deriving Repr

/-- `json.loads` on a raw cached string. -/
def jsonLoads : Raw → Option Json
  | .wellFormed j => some j
  | .corrupt _ => none

/-- `json.dumps`. -/
def jsonDumps (j : Json) : Raw := .wellFormed j

/-- Python truthiness of the raw string (`if cached:` in `cached_get`):
`json.dumps` output is never empty, and a corrupt string is truthy iff it is
non-empty. -/
def Raw.truthy : Raw → Bool
  | .wellFormed _ => true
  | .corrupt s => s != ""

/-- The mutable state the cache layer acts on: the process-local tier
`_INPROC_CACHE`, the contents of the shared Redis cache, and two
instrumentation counters (number of HTTP fetches issued by `fetch_data` and
number of shared-cache `get` round trips). -/
structure CacheState where
  inproc : List (String × Json)
  redis : List (String × Raw)
  fetches : Nat
  redisTrips : Nat
deriving Repr

/-- Environment of one run: outcomes of the operations whose results the
code does not control.  `connectOk` models `get_redis` (its `from_url` call)
succeeding; `getRaises key` models the shared-cache `get` raising an
exception for that key; `setOk key` models whether the shared-cache `set`
for that key succeeds; `fetch url` is the outcome of `fetch_data url`. -/
structure Env where
  connectOk : Bool
  getRaises : String → Bool
  setOk : String → Bool
  fetch : String → Except Unit Json

/-- Failures the cache layer can propagate: `ConnectionError` from
`get_redis`, an exception raised by the shared-cache read, a `fetch_data`
failure, or an uncaught `TypeError`/`AttributeError` on malformed cache
payloads in the OData helper. -/
inductive FetchError where
  | connect
  | redisRead
  | http
  | uncaught
deriving Repr, DecidableEq

/-- The fetch-and-store tail of `cached_get` (api_client.py lines 120-128):
call `fetch_data`, propagate its failure; on success, best-effort
`redis.set` (a failed write is swallowed), then store into the
process-local tier and return the data. -/
def fetchAndStore (env : Env) (cacheKey url : String) (st : CacheState) :
    Except FetchError Json × CacheState :=
  match env.fetch url with
  | .error _ => (.error .http, { st with fetches := st.fetches + 1 })
  | .ok data =>
    let st₁ := { st with fetches := st.fetches + 1 }
    let st₂ :=
      if env.setOk cacheKey then
        { st₁ with redis := (cacheKey, jsonDumps data) :: st₁.redis }
      else st₁
    (.ok data, { st₂ with inproc := (cacheKey, data) :: st₂.inproc })

/-- Two-tier cache orchestrator `cached_get` (api_client.py lines 84-128).
Process-local hit returns immediately; otherwise connect to Redis
(propagating a connection failure), read the key (an exception raised by
the read itself is not caught and propagates), serve a parseable shared
entry after storing it locally, treat a corrupt entry as a miss, and fall
through to `fetchAndStore`. -/
def cached_get (env : Env) (cacheKey url : String) (st : CacheState) :
    Except FetchError Json × CacheState :=
  match st.inproc.lookup cacheKey with
  | some v => (.ok v, st)
  | none =>
    if env.connectOk then
      if env.getRaises cacheKey then
        (.error .redisRead, { st with redisTrips := st.redisTrips + 1 })
      else
        let st₁ := { st with redisTrips := st.redisTrips + 1 }
        match st.redis.lookup cacheKey with
        | some raw =>
          if raw.truthy then
            match jsonLoads raw with
            | some data =>
              (.ok data, { st₁ with inproc := (cacheKey, data) :: st₁.inproc })
            | none => fetchAndStore env cacheKey url st₁
          else fetchAndStore env cacheKey url st₁
        | none => fetchAndStore env cacheKey url st₁
    else
      (.error .connect, st)

/-! Basic association-list lemmas used throughout. -/

theorem lookup_cons_self {β : Type} (l : List (String × β)) (k : String) (v : β) :
    ((k, v) :: l).lookup k = some v := by
  simp [List.lookup]

theorem lookup_cons_ne {β : Type} (l : List (String × β)) {k k' : String} (v : β)
    (h : k ≠ k') : ((k', v) :: l).lookup k = l.lookup k := by
  have hb : (k == k') = false := by simp [h]
  simp [List.lookup, hb]

/-! Structural lemmas about `cached_get`. -/

/-- On a process-local hit, `cached_get` returns the stored value and leaves
the whole state (both tiers and both counters) untouched. -/
theorem cached_get_hit (env : Env) (cacheKey url : String) (st : CacheState) (v : Json)
    (h : st.inproc.lookup cacheKey = some v) :
    cached_get env cacheKey url st = (.ok v, st) := by
  unfold cached_get
  rw [h]

/-- A successful `fetchAndStore` leaves its value in the process-local tier. -/
theorem fetchAndStore_ok_mem (env : Env) (cacheKey url : String) (st : CacheState)
    (v : Json) (st₁ : CacheState)
    (h : fetchAndStore env cacheKey url st = (.ok v, st₁)) :
    st₁.inproc.lookup cacheKey = some v := by
  unfold fetchAndStore at h
  split at h
  · exact absurd (congrArg Prod.fst h) (by simp)
  · injection h with h1 h2
    injection h1 with h1
    subst h1
    subst h2
    split <;> exact lookup_cons_self _ _ _

/-- A successful `cached_get` leaves its value in the process-local tier. -/
theorem cached_get_ok_mem (env : Env) (cacheKey url : String) (st : CacheState)
    (v : Json) (st₁ : CacheState)
    (h : cached_get env cacheKey url st = (.ok v, st₁)) :
    st₁.inproc.lookup cacheKey = some v := by
  unfold cached_get at h
  split at h
  · next hv =>
    injection h with h1 h2
    injection h1 with h1
    subst h1; subst h2
    assumption
  · split at h
    · split at h
      · exact absurd (congrArg Prod.fst h) (by simp)
      · split at h
        · split at h
          · split at h
            · injection h with h1 h2
              injection h1 with h1
              subst h1; subst h2
              exact lookup_cons_self _ _ _
            · exact fetchAndStore_ok_mem _ _ _ _ _ _ h
          · exact fetchAndStore_ok_mem _ _ _ _ _ _ h
        · exact fetchAndStore_ok_mem _ _ _ _ _ _ h
    · exact absurd (congrArg Prod.fst h) (by simp)

/-- The process-local tier after any `cached_get` call is either unchanged or
extended by one entry for the requested key; nothing is ever removed. -/
theorem cached_get_inproc_shape (env : Env) (cacheKey url : String) (st : CacheState) :
    ((cached_get env cacheKey url st).2).inproc = st.inproc ∨
    ∃ d, ((cached_get env cacheKey url st).2).inproc = (cacheKey, d) :: st.inproc := by
  unfold cached_get fetchAndStore
  split
  · left; rfl
  · split
    · split
      · left; rfl
      · split
        · split
          · split
            · right; exact ⟨_, rfl⟩
            · split
              · left; rfl
              · rename_i data hd
                right
                refine ⟨data, ?_⟩
                split <;> rfl
          · split
            · left; rfl
            · rename_i data hd
              right
              refine ⟨data, ?_⟩
              split <;> rfl
        · split
          · left; rfl
          · rename_i data hd
            right
            refine ⟨data, ?_⟩
            split <;> rfl
    · left; rfl

/-- Any single `cached_get` call performs at most one HTTP fetch. -/
theorem cached_get_fetches_le (env : Env) (cacheKey url : String) (st : CacheState) :
    ((cached_get env cacheKey url st).2).fetches ≤ st.fetches + 1 := by
  unfold cached_get fetchAndStore
  split
  · exact Nat.le_succ _
  · split
    · split
      · exact Nat.le_succ _
      · split
        · split
          · split
            · exact Nat.le_succ _
            · split
              · exact Nat.le_refl _
              · split <;> exact Nat.le_refl _
          · split
            · exact Nat.le_refl _
            · split <;> exact Nat.le_refl _
        · split
          · exact Nat.le_refl _
          · split <;> exact Nat.le_refl _
    · exact Nat.le_succ _

/-! Concrete environments and states used by witnesses and counterexamples. -/

/-- A fault-free environment whose HTTP fetcher always returns `7`. -/
def envW : Env :=
  { connectOk := true
    getRaises := fun _ => false
    setOk := fun _ => true
    fetch := fun _ => .ok (Json.num 7) }

/-- Empty cache state. -/
def stEmpty : CacheState := { inproc := [], redis := [], fetches := 0, redisTrips := 0 }

/-- State whose process-local tier already holds key `"k"`. -/
def stW : CacheState :=
  { inproc := [("k", Json.num 1)], redis := [], fetches := 0, redisTrips := 0 }

/-- State whose shared tier holds a parseable entry for key `"k"`. -/
def stR : CacheState :=
  { inproc := [], redis := [("k", jsonDumps (Json.num 2))], fetches := 0, redisTrips := 0 }

/-- C1: a key stored in the process-local tier is served from it verbatim with
no shared-cache round trip and no HTTP fetch (the state, including both
instrumentation counters, is unchanged); no `cached_get` call ever removes or
replaces an existing process-local entry; and after a first successful call,
a second call with the same key returns the identical value with unchanged
state, so two calls issue at most one HTTP fetch in total. -/
theorem claim_C1_process_local_tier (env : Env) (cacheKey url : String) (st : CacheState) :
    (∀ v, st.inproc.lookup cacheKey = some v →
      cached_get env cacheKey url st = (.ok v, st)) ∧
    (∀ k v, st.inproc.lookup k = some v →
      ((cached_get env cacheKey url st).2).inproc.lookup k = some v) ∧
    (∀ v st₁, cached_get env cacheKey url st = (.ok v, st₁) →
      cached_get env cacheKey url st₁ = (.ok v, st₁) ∧ st₁.fetches ≤ st.fetches + 1) := by
  refine ⟨fun v h => cached_get_hit env cacheKey url st v h, ?_, ?_⟩
  · intro k v h
    by_cases hk : k = cacheKey
    · subst hk
      rw [cached_get_hit env k url st v h]
      exact h
    · rcases cached_get_inproc_shape env cacheKey url st with hs | ⟨d, hs⟩
      · rw [hs]; exact h
      · rw [hs, lookup_cons_ne st.inproc d hk]; exact h
  · intro v st₁ h
    refine ⟨cached_get_hit env cacheKey url st₁ v (cached_get_ok_mem _ _ _ _ _ _ h), ?_⟩
    have h2 := cached_get_fetches_le env cacheKey url st
    rw [h] at h2
    simpa using h2

/-- Witness for C1 at a concrete state whose process-local tier holds `"k"`. -/
theorem claim_C1_witness :
    cached_get envW "k" "u" stW = (.ok (Json.num 1), stW) :=
  (claim_C1_process_local_tier envW "k" "u" stW).1 (Json.num 1) rfl

/-- C2: for a key absent from the process-local tier, a parseable shared-tier
entry is stored into the process-local tier and returned with zero HTTP
fetches (only the round-trip counter moves); a corrupt (non-JSON, truthy)
shared entry is treated as a miss: exactly one HTTP fetch happens, the
fetched value overwrites the shared entry, and the decode failure is not
propagated (the call returns `.ok`). -/
theorem claim_C2_shared_tier (env : Env) (cacheKey url : String) (st : CacheState)
    (hmiss : st.inproc.lookup cacheKey = none)
    (hconn : env.connectOk = true)
    (hget : env.getRaises cacheKey = false) :
    (∀ raw j, st.redis.lookup cacheKey = some raw → jsonLoads raw = some j →
      cached_get env cacheKey url st =
        (.ok j, { st with inproc := (cacheKey, j) :: st.inproc,
                          redisTrips := st.redisTrips + 1 })) ∧
    (∀ s j, st.redis.lookup cacheKey = some (.corrupt s) → s ≠ "" →
      env.fetch url = .ok j → env.setOk cacheKey = true →
      cached_get env cacheKey url st =
        (.ok j, { inproc := (cacheKey, j) :: st.inproc,
                  redis := (cacheKey, jsonDumps j) :: st.redis,
                  fetches := st.fetches + 1,
                  redisTrips := st.redisTrips + 1 })) := by
  constructor
  · intro raw j hr hj
    rcases raw with j' | s
    · have hjj : j' = j := by simpa [jsonLoads] using hj
      subst hjj
      simp [cached_get, hmiss, hconn, hget, hr, Raw.truthy, jsonLoads]
    · simp [jsonLoads] at hj
  · intro s j hr hs hf hset
    have htr : ((Raw.corrupt s).truthy) = true := by simp [Raw.truthy, hs]
    simp [cached_get, fetchAndStore, hmiss, hconn, hget, hr, htr, jsonLoads, hf, hset]

/-- Witness for C2 at a concrete state whose shared tier holds a parseable
entry for `"k"`. -/
theorem claim_C2_witness :
    cached_get envW "k" "u" stR =
      (.ok (Json.num 2),
        { stR with inproc := ("k", Json.num 2) :: stR.inproc,
                   redisTrips := stR.redisTrips + 1 }) :=
  (claim_C2_shared_tier envW "k" "u" stR rfl rfl rfl).1
    (jsonDumps (Json.num 2)) (Json.num 2) rfl rfl

/-- C3 counterexample: the claim says every failure of a shared-cache read is
absorbed and never changes `cached_get`'s outcome, but the source wraps only
`json.loads` and `redis.set` in try/except — the `redis.get` call itself
(api_client.py line 110) has no handler.  With identical inputs, a raising
shared-cache read turns a call that would succeed into a propagated error. -/
theorem claim_C3_counterexample :
    (cached_get { envW with getRaises := fun _ => true } "k" "u" stEmpty).1 =
      .error .redisRead ∧
    (cached_get envW "k" "u" stEmpty).1 = .ok (Json.num 7) := by
  constructor <;> rfl

/-- C3 amended: decode failures of shared-cache reads and failures of the
shared-cache write are absorbed and never change `cached_get`'s returned
outcome (the result is invariant under any change of the write's success
function); in particular when the `set` of the freshly fetched value fails,
the value is still stored in the process-local tier and returned, with the
shared tier left unchanged.  An exception raised by the shared-cache read
itself, however, propagates (see the counterexample). -/
theorem claim_C3_amended_absorbed (env : Env) (cacheKey url : String) (st : CacheState) :
    (∀ f, (cached_get { env with setOk := f } cacheKey url st).1 =
          (cached_get env cacheKey url st).1) ∧
    (∀ j, st.inproc.lookup cacheKey = none → env.connectOk = true →
      env.getRaises cacheKey = false → env.setOk cacheKey = false →
      st.redis.lookup cacheKey = none → env.fetch url = .ok j →
      cached_get env cacheKey url st =
        (.ok j, { st with inproc := (cacheKey, j) :: st.inproc,
                          fetches := st.fetches + 1,
                          redisTrips := st.redisTrips + 1 })) := by
  obtain ⟨c, g, so, fe⟩ := env
  constructor
  · intro f
    show (cached_get ⟨c, g, f, fe⟩ cacheKey url st).1 =
         (cached_get ⟨c, g, so, fe⟩ cacheKey url st).1
    rcases hl : st.inproc.lookup cacheKey with _ | v
    · cases c
      · simp [cached_get, hl]
      · cases hg : g cacheKey
        · rcases hr : st.redis.lookup cacheKey with _ | raw
          · cases hf : fe url <;>
              simp [cached_get, fetchAndStore, hl, hg, hr, hf]
          · cases htr : raw.truthy
            · cases hf : fe url <;>
                simp [cached_get, fetchAndStore, hl, hg, hr, htr, hf]
            · rcases hj : jsonLoads raw with _ | j
              · cases hf : fe url <;>
                  simp [cached_get, fetchAndStore, hl, hg, hr, htr, hj, hf]
              · simp [cached_get, hl, hg, hr, htr, hj]
        · simp [cached_get, hl, hg]
    · simp [cached_get, hl]
  · intro j hmiss hconn hget hset hr hf
    simp only [] at hconn hget hset hf
    simp [cached_get, fetchAndStore, hmiss, hconn, hget, hr, hf, hset]

/-- Witness for the amended C3: with a failing shared-cache write, the
freshly fetched value is still stored locally and returned, and the shared
tier is untouched. -/
theorem claim_C3_amended_witness :
    cached_get { envW with setOk := fun _ => false } "k" "u" stEmpty =
      (.ok (Json.num 7),
        { stEmpty with inproc := ("k", Json.num 7) :: stEmpty.inproc,
                       fetches := stEmpty.fetches + 1,
                       redisTrips := stEmpty.redisTrips + 1 }) :=
  (claim_C3_amended_absorbed { envW with setOk := fun _ => false } "k" "u" stEmpty).2
    (Json.num 7) rfl rfl rfl rfl rfl rfl

/-! The OData single-key cache helper (api_client.py lines 169-218). -/

/-- Python truthiness of a decoded JSON value. -/
def Json.truthy : Json → Bool
  | .null => false
  | .bool b => b
  | .num n => n != 0
  | .str s => s != ""
  | .arr xs => !xs.isEmpty
  | .obj fs => !fs.isEmpty

/-- Numeric value used when a timestamp appears on the left of Python's
`time.time() - cached_time`: JSON numbers subtract directly and booleans
coerce to 0/1; anything else raises `TypeError`. -/
def tsNumeric : Json → Option Int
  | .num n => some n
  | .bool b => some (if b then 1 else 0)
  | _ => none

/-- `dict.get` yields Python `None` both for a missing key and for a stored
JSON null, and `get_odate_response` returns that object directly, so both
cases collapse to `none` (absent) for its caller. -/
def pyGet (fields : List (String × Json)) (k : String) : Option Json :=
  match fields.lookup k with
  | some Json.null => none
  | o => o

/-- OData cache key (api_client.py lines 183 and 202). -/
def odataKey (userId : String) : String := "odata_flight_" ++ userId

/-- The envelope written by `cache_odate_response` (line 179); `time.time()`
is modelled as an integer number of seconds. -/
def odataEntry (now : Int) (response : Json) : Json :=
  Json.obj [("timestamp", Json.num now), ("response", response)]

/-- `cache_odate_response` (api_client.py lines 169-186): connect to Redis
(propagating a connection failure), then best-effort write of the
timestamped envelope under the user's key; a write failure is swallowed. -/
def cache_odate_response (env : Env) (now : Int) (userId : String) (response : Json)
    (st : CacheState) : Except FetchError CacheState :=
  if env.connectOk then
    .ok (if env.setOk (odataKey userId) then
      { st with redis := (odataKey userId, jsonDumps (odataEntry now response)) :: st.redis }
    else st)
  else .error .connect

/-- `get_odate_response` (api_client.py lines 190-218).  `.error` marks the
places where the Python raises (connection failure, a raising shared-cache
read, `.get` on a non-dict decode result, subtracting a truthy non-numeric
timestamp); `.ok none` models returning Python `None` (absent); a decode
failure is caught and treated as absent; a truthy numeric timestamp older
than `ttl` is treated as absent; otherwise the stored `response` field is
returned. -/
def get_odate_response (env : Env) (now : Int) (userId : String) (ttl : Int)
    (st : CacheState) : Except FetchError (Option Json) :=
  if env.connectOk then
    if env.getRaises (odataKey userId) then .error .redisRead
    else
      match st.redis.lookup (odataKey userId) with
      | none => .ok none
      | some raw =>
        if raw.truthy then
          match jsonLoads raw with
          | none => .ok none
          | some cacheData =>
            match cacheData with
            | .obj fields =>
              match fields.lookup "timestamp" with
              | none => .ok (pyGet fields "response")
              | some ts =>
                if ts.truthy then
                  match tsNumeric ts with
                  | some n =>
                    if now - n > ttl then .ok none
                    else .ok (pyGet fields "response")
                  | none => .error .uncaught
                else .ok (pyGet fields "response")
            | _ => .error .uncaught
        else .ok none
  else .error .connect

/-- C8: for an entry written by `cache_odate_response` at (non-zero) time
`t`, `get_odate_response` reports absent whenever `now - t` exceeds `ttl`
even though the shared cache still physically holds the entry; when the
entry is not logically expired it returns the stored response; and a stored
value that fails to JSON-decode is reported absent. -/
theorem claim_C8_odata_logical_expiry (env : Env) (now t ttl : Int) (userId : String)
    (resp : Json) (st st' : CacheState)
    (hconn : env.connectOk = true)
    (hget : env.getRaises (odataKey userId) = false)
    (hset : env.setOk (odataKey userId) = true)
    (ht : t ≠ 0)
    (hresp : resp ≠ Json.null)
    (hput : cache_odate_response env t userId resp st = .ok st') :
    (now - t > ttl →
      get_odate_response env now userId ttl st' = .ok none ∧
      (st'.redis.lookup (odataKey userId)).isSome = true) ∧
    (¬(now - t > ttl) →
      get_odate_response env now userId ttl st' = .ok (some resp)) ∧
    (∀ s, s ≠ "" → st.redis.lookup (odataKey userId) = some (.corrupt s) →
      get_odate_response env now userId ttl st = .ok none) := by
  have hst' : st' =
      { st with redis := (odataKey userId, jsonDumps (odataEntry t resp)) :: st.redis } := by
    simp [cache_odate_response, hconn, hset] at hput
    exact hput.symm
  subst hst'
  have hlk := lookup_cons_self st.redis (odataKey userId) (jsonDumps (odataEntry t resp))
  have hpy : pyGet [("timestamp", Json.num t), ("response", resp)] "response" = some resp := by
    cases resp <;> simp_all [pyGet, List.lookup]
  refine ⟨?_, ?_, ?_⟩
  · intro hex
    constructor
    · simp [get_odate_response, hconn, hget, hlk, jsonLoads, jsonDumps, Raw.truthy,
            odataEntry, List.lookup, Json.truthy, tsNumeric, ht, hex]
    · simp [hlk]
  · intro hnex
    simp [get_odate_response, hconn, hget, hlk, jsonLoads, jsonDumps, Raw.truthy,
          odataEntry, List.lookup, Json.truthy, tsNumeric, ht, hnex, hpy]
  · intro s hs hr
    have hts : ((Raw.corrupt s).truthy) = true := by simp [Raw.truthy, hs]
    simp [get_odate_response, hconn, hget, hr, hts, jsonLoads]

/-- Witness for C8 at the spec's numbers: an entry stored at `t = now - 7200`
is reported absent under `ttl = 3600` although still physically present. -/
theorem claim_C8_witness :
    get_odate_response envW 10000 "alice" 3600
      { stEmpty with
          redis := [(odataKey "alice", jsonDumps (odataEntry 2800 (Json.str "r")))] } =
      .ok none ∧
    (({ stEmpty with
          redis := [(odataKey "alice", jsonDumps (odataEntry 2800 (Json.str "r")))]
        : CacheState }).redis.lookup (odataKey "alice")).isSome = true :=
  (claim_C8_odata_logical_expiry envW 10000 2800 3600 "alice" (Json.str "r")
    stEmpty _ rfl rfl rfl (by decide) (fun h => Json.noConfusion h) rfl).1 (by decide)

/-- C10 (implicit): if the stored OData entry decodes to an object whose
`timestamp` field is missing, null, or zero, the staleness comparison is
skipped entirely (the timestamp is falsy, so `if cached_time and ...` short
circuits) and the stored `response` is returned no matter how large
`now` or how small `ttl` is — such an entry never logically expires. -/
theorem claim_C10_falsy_timestamp_never_expires (env : Env) (now ttl : Int)
    (userId : String) (st : CacheState) (fields : List (String × Json)) (resp : Json)
    (hconn : env.connectOk = true)
    (hget : env.getRaises (odataKey userId) = false)
    (hlk : st.redis.lookup (odataKey userId) = some (.wellFormed (Json.obj fields)))
    (hresp : fields.lookup "response" = some resp)
    (hnn : resp ≠ Json.null)
    (hts : fields.lookup "timestamp" = none ∨
           fields.lookup "timestamp" = some Json.null ∨
           fields.lookup "timestamp" = some (Json.num 0)) :
    get_odate_response env now userId ttl st = .ok (some resp) := by
  have hpy : pyGet fields "response" = some resp := by
    cases resp <;> simp_all [pyGet]
  rcases hts with h | h | h <;>
    simp [get_odate_response, hconn, hget, hlk, Raw.truthy, jsonLoads, h,
          Json.truthy, hpy]

/-- Witness for C10: an entry with no `timestamp` field is served even with
`now` huge and `ttl` zero. -/
theorem claim_C10_witness :
    get_odate_response envW 1000000 "bob" 0
      { stEmpty with
          redis := [(odataKey "bob",
            jsonDumps (Json.obj [("response", Json.str "r")]))] } =
      .ok (some (Json.str "r")) :=
  claim_C10_falsy_timestamp_never_expires envW 1000000 0 "bob" _
    [("response", Json.str "r")] (Json.str "r") rfl rfl rfl rfl
    (fun h => Json.noConfusion h) (Or.inl rfl)

/-! Cache-key derivations used across the process (C9). -/

/-- Cancellation of a common left part of a string concatenation. -/
theorem append_left_cancel_str {s t u : String} (h : s ++ t = s ++ u) : t = u := by
  have hd : (s ++ t).data = (s ++ u).data := congrArg String.data h
  rw [String.data_append, String.data_append] at hd
  exact String.ext (List.append_cancel_left hd)

/-- Last path segment after stripping trailing slashes, as computed by
`fetch_single` (api_client.py line 157): `url.rstrip("/").split("/")[-1]`. -/
def lastPathSegment (url : String) : String :=
  ((url.dropRightWhile (fun c => c == '/')).splitOn "/").getLastD ""

/-- Cache key derived by `fetch_single` (api_client.py line 158). -/
def fetchSingleKey (pref url : String) : String :=
  pref ++ "_" ++ lastPathSegment url

/-- Cache key for one page of the vehicles pagination (etl.py line 93): the
full page URL is embedded in the key. -/
def vehiclesKey (url : String) : String := "vehicles_data_" ++ url

/-- Cache key passed by `run_etl` for a batch pilot lookup (etl.py lines
168-172): the constant string `"pilots_batch"`; the pilot-id list only
enters the URL, never the key. -/
def pilotsBatchKey (pilotIds : List String) : String := "pilots_batch"

/-- The batch pilot URL built by `run_etl` (etl.py line 170). -/
def pilotsBatchUrl (baseUrl : String) (pilotIds : List String) : String :=
  baseUrl ++ "/api/people/?id=" ++ String.intercalate "," pilotIds

/-- C9 counterexample: two distinct batch-id lists are distinct logical
resources (their fetch URLs differ), yet `run_etl` derives the same cache
key `"pilots_batch"` for both, so the keys the program derives are not
collision-free across unrelated resources. -/
theorem claim_C9_counterexample :
    pilotsBatchUrl "https://api" ["1"] ≠ pilotsBatchUrl "https://api" ["2"] ∧
    pilotsBatchKey ["1"] = pilotsBatchKey ["2"] := by
  constructor
  · decide
  · rfl

/-- C9 amended: the pagination and OData key families are deterministic and
collision-free — distinct page URLs give distinct keys, distinct user ids
give distinct keys, and the two families never collide with each other —
but every batch pilot lookup in `run_etl` shares the single constant key
`"pilots_batch"`, so distinct batch-id lists collide. -/
theorem claim_C9_amended_key_families (u u' a b : String) :
    (u ≠ u' → vehiclesKey u ≠ vehiclesKey u') ∧
    (a ≠ b → odataKey a ≠ odataKey b) ∧
    vehiclesKey u ≠ odataKey a ∧
    (∀ ids ids' : List String, pilotsBatchKey ids = pilotsBatchKey ids') := by
  refine ⟨?_, ?_, ?_, fun _ _ => rfl⟩
  · intro hne h
    exact hne (append_left_cancel_str h)
  · intro hne h
    exact hne (append_left_cancel_str h)
  · intro h
    have hd : ("vehicles_data_".data ++ u.data) = ("odata_flight_".data ++ a.data) := by
      have h2 := congrArg String.data h
      simpa [vehiclesKey, odataKey, String.data_append] using h2
    have h1 : ("vehicles_data_".data ++ u.data).head? = some 'v' := rfl
    rw [hd] at h1
    have h2 : ("odata_flight_".data ++ a.data).head? = some 'o' := rfl
    rw [h2] at h1
    simp at h1

/-- Witness for the amended C9 at concrete page URLs and user ids. -/
theorem claim_C9_amended_witness :
    vehiclesKey "https://x/p1" ≠ vehiclesKey "https://x/p2" ∧
    odataKey "alice" ≠ odataKey "bob" ∧
    pilotsBatchKey ["1", "2"] = pilotsBatchKey ["3"] :=
  ⟨(claim_C9_amended_key_families "https://x/p1" "https://x/p2" "alice" "bob").1
      (by decide),
   (claim_C9_amended_key_families "https://x/p1" "https://x/p2" "alice" "bob").2.1
      (by decide),
   (claim_C9_amended_key_families "https://x/p1" "https://x/p2" "alice" "bob").2.2.2
      ["1", "2"] ["3"]⟩

/-! The concurrency-bounded batch fetcher `parallel_cached_get`
(api_client.py lines 134-163). -/

/-- One task of `parallel_cached_get` (api_client.py lines 155-159): derive
the cache key from the prefix and the URL's last path segment and run the
orchestrator on it. -/
def fetch_single (env : Env) (pref : String) (url : String) (st : CacheState) :
    Except FetchError Json × CacheState :=
  cached_get env (fetchSingleKey pref url) url st

/-- Effect of the batch tasks executed in a given completion order: under
the cooperative scheduler each task's cache mutations happen between
awaits, so the overall effect on the cache state is that of the tasks run
one after another in completion order, each threading the state left by the
previous one. -/
def runSeq (env : Env) (pref : String) : List String → CacheState →
    List (Except FetchError Json) × CacheState
  | [], st => ([], st)
  | u :: us, st =>
    let r := fetch_single env pref u st
    let rest := runSeq env pref us r.2
    (r.1 :: rest.1, rest.2)

/-- Observable outcome of `parallel_cached_get` (api_client.py lines
134-163): `stream.map` over the URLs with `ordered := False` collects one
item per input URL in task completion order, which is some permutation of
the input list. -/
def ParallelOutcome (env : Env) (pref : String) (urls : List String)
    (st : CacheState) (res : List (Except FetchError Json)) (st' : CacheState) : Prop :=
  ∃ order : List String, order.Perm urls ∧ runSeq env pref order st = (res, st')

theorem runSeq_length (env : Env) (pref : String) (urls : List String) (st : CacheState) :
    (runSeq env pref urls st).1.length = urls.length := by
  induction urls generalizing st with
  | nil => rfl
  | cons u us ih => simp [runSeq, ih]

/-- The i-th collected result is exactly the `cached_get` outcome of the
i-th URL in completion order, run in the state left by its predecessors. -/
theorem runSeq_get? (env : Env) (pref : String) (urls : List String) (st : CacheState)
    (i : Nat) (hi : i < urls.length) :
    (runSeq env pref urls st).1.get? i =
      some (fetch_single env pref (urls.getD i "")
        ((runSeq env pref (urls.take i) st).2)).1 := by
  induction urls generalizing st i with
  | nil => exact absurd hi (by simp)
  | cons u us ih =>
    cases i with
    | zero => rfl
    | succ n =>
      have hn : n < us.length := by simpa using hi
      simpa [runSeq] using ih (fetch_single env pref u st).2 n hn

/-- C5: any outcome of `parallel_cached_get` has exactly one result per
input URL (as a multiset, via some completion-order permutation of the
inputs — the output order is not tied to the input order), each result
being the `cached_get` outcome for its URL under the key
`pref ++ "_" ++ lastPathSegment url`; an empty URL list yields an empty
result list with the state — both cache tiers and both counters — left
completely untouched. -/
theorem claim_C5_unordered_completeness (env : Env) (pref : String) (urls : List String)
    (st : CacheState) (res : List (Except FetchError Json)) (st' : CacheState)
    (h : ParallelOutcome env pref urls st res st') :
    res.length = urls.length ∧
    (∃ order : List String, order.Perm urls ∧
      ∀ i, i < urls.length →
        res.get? i = some (fetch_single env pref (order.getD i "")
          ((runSeq env pref (order.take i) st).2)).1) ∧
    (urls = [] → res = [] ∧ st' = st) := by
  obtain ⟨order, hperm, hrun⟩ := h
  have hres : res = (runSeq env pref order st).1 := by rw [hrun]
  have hlen : res.length = urls.length := by
    rw [hres, runSeq_length]
    exact hperm.length_eq
  refine ⟨hlen, ⟨order, hperm, ?_⟩, ?_⟩
  · intro i hi
    rw [hres]
    exact runSeq_get? env pref order st i (by rw [hperm.length_eq]; exact hi)
  · intro hnil
    subst hnil
    have horder : order = [] := List.perm_nil.mp hperm
    subst horder
    have : (runSeq env pref [] st) = (res, st') := hrun
    exact ⟨by simp [hres, runSeq], congrArg Prod.snd this.symm⟩

/-- Concrete input list and a non-input-order completion order for the C5
witness. -/
def urlsW : List String := ["http://f/a/", "http://f/b"]

/-- A completion order distinct from the input order. -/
def orderW : List String := ["http://f/b", "http://f/a/"]

/-- Witness for C5 on two URLs completing in reversed order. -/
theorem claim_C5_witness :
    ((runSeq envW "w" orderW stEmpty).1).length = urlsW.length ∧
    (∃ order : List String, order.Perm urlsW ∧
      ∀ i, i < urlsW.length →
        ((runSeq envW "w" orderW stEmpty).1).get? i =
          some (fetch_single envW "w" (order.getD i "")
            ((runSeq envW "w" (order.take i) stEmpty).2)).1) ∧
    (urlsW = [] → (runSeq envW "w" orderW stEmpty).1 = [] ∧
      (runSeq envW "w" orderW stEmpty).2 = stEmpty) :=
  claim_C5_unordered_completeness envW "w" urlsW stEmpty _ _
    ⟨orderW, by decide, rfl⟩

/-! The admission gate (api_client.py lines 19-20): the module-level
`SEMAPHORE = asyncio.Semaphore(5)` bounding concurrent HTTP fetches. -/

/-- Phase of one logical `fetch_single` task with respect to the admission
gate: not yet admitted, inside the `async with SEMAPHORE` block (its
`cached_get`, and hence any HTTP fetch, possibly in flight), or completed —
successfully (`done true`) or with a propagated failure (`done false`);
`async with` releases the slot on both completion paths. -/
inductive Phase where
  | waiting
  | running
  | done (ok : Bool)
deriving Repr, DecidableEq

/-- Scheduler state of the gate: the semaphore's free-slot counter and the
phases of all scheduled tasks.  Tasks of any number of concurrent
`parallel_cached_get` invocations share the single module-level semaphore,
so one task list covers them all. -/
structure GateState where
  free : Nat
  tasks : List Phase
deriving Repr

/-- Initial state: `asyncio.Semaphore(5)` fresh, `k` tasks scheduled. -/
def initGate (k : Nat) : GateState := ⟨5, List.replicate k .waiting⟩

/-- Cooperative-scheduler transitions of the admission gate: a waiting task
is admitted only when a slot is free (`SEMAPHORE.acquire` blocks
otherwise); a running task that completes — successfully or with an
exception — releases its slot. -/
inductive GateStep : GateState → GateState → Prop where
  | acquire (s : GateState) (i : Nat) (hi : s.tasks.get? i = some .waiting)
      (hf : 0 < s.free) :
      GateStep s ⟨s.free - 1, s.tasks.set i .running⟩
  | release (s : GateState) (i : Nat) (ok : Bool)
      (hi : s.tasks.get? i = some .running) :
      GateStep s ⟨s.free + 1, s.tasks.set i (.done ok)⟩

/-- Number of tasks currently admitted through the gate (HTTP fetches that
may be in flight). -/
def runningCount (s : GateState) : Nat :=
  s.tasks.countP (fun p => p == Phase.running)

theorem countP_set_up {α : Type} (p : α → Bool) (l : List α) (i : Nat) (a b : α)
    (h : l.get? i = some a) (hpa : p a = false) (hpb : p b = true) :
    (l.set i b).countP p = l.countP p + 1 := by
  induction l generalizing i with
  | nil => simp at h
  | cons x xs ih =>
    cases i with
    | zero =>
      injection h with h
      subst h
      simp [List.set, List.countP_cons, hpa, hpb]
    | succ n =>
      have := ih n h
      simp [List.set, List.countP_cons, this]
      omega

theorem countP_set_down {α : Type} (p : α → Bool) (l : List α) (i : Nat) (a b : α)
    (h : l.get? i = some a) (hpa : p a = true) (hpb : p b = false) :
    l.countP p = (l.set i b).countP p + 1 := by
  induction l generalizing i with
  | nil => simp at h
  | cons x xs ih =>
    cases i with
    | zero =>
      injection h with h
      subst h
      simp [List.set, List.countP_cons, hpa, hpb]
    | succ n =>
      have := ih n h
      simp [List.set, List.countP_cons, this]
      omega

/-- The inductive invariant tying the free-slot counter to the number of
admitted tasks. -/
def GateInv (s : GateState) : Prop := s.free + runningCount s = 5

theorem gateStep_inv {s s' : GateState} (h : GateStep s s') (hs : GateInv s) :
    GateInv s' := by
  cases h with
  | acquire i hi hf =>
    unfold GateInv runningCount at hs ⊢
    have hc := countP_set_up (fun p => p == Phase.running) s.tasks i
      Phase.waiting Phase.running hi (by decide) (by decide)
    show s.free - 1 + (s.tasks.set i Phase.running).countP (fun p => p == Phase.running) = 5
    omega
  | release i ok hi =>
    unfold GateInv runningCount at hs ⊢
    have hc := countP_set_down (fun p => p == Phase.running) s.tasks i
      Phase.running (Phase.done ok) hi (by decide) (by cases ok <;> decide)
    show s.free + 1 + (s.tasks.set i (Phase.done ok)).countP (fun p => p == Phase.running) = 5
    omega

/-- C4: in every state reachable from any initial state — any number of
scheduled tasks, hence any number of input URLs across any number of
concurrent `parallel_cached_get` executions — at most 5 tasks are admitted
through the gate simultaneously, i.e. at most 5 gate-admitted HTTP fetches
are ever in flight; slots are released on completion, success or failure
alike (both `GateStep.release` forms). -/
theorem claim_C4_admission_gate_bound (k : Nat) (s : GateState)
    (h : Relation.ReflTransGen GateStep (initGate k) s) :
    runningCount s ≤ 5 := by
  have hinv : GateInv s := by
    induction h with
    | refl =>
      unfold GateInv runningCount initGate
      have : (List.replicate k Phase.waiting).countP (fun p => p == Phase.running) = 0 := by
        apply List.countP_eq_zero.mpr
        intro a ha
        have := List.eq_of_mem_replicate ha
        subst this
        decide
      simp [this]
    | tail hsteps hstep ih => exact gateStep_inv hstep ih
  unfold GateInv at hinv
  omega

/-- Witness for C4: a concrete reachable state with one admitted task. -/
theorem claim_C4_witness :
    runningCount ⟨4, [Phase.running, Phase.waiting]⟩ ≤ 5 :=
  claim_C4_admission_gate_bound 2 ⟨4, [Phase.running, Phase.waiting]⟩
    (Relation.ReflTransGen.tail Relation.ReflTransGen.refl
      (GateStep.acquire (initGate 2) 0 rfl (by decide)))

/-! The pagination walker `fetch_vehicles_paginated` (etl.py lines 77-99). -/

/-- The page's `results` array (etl.py line 94): `page_data.get("results", [])`
defaults a missing field to the empty list.  `none` marks pages outside the
modelled domain (a non-dict page, on which `.get` raises, or a present
`results` field that is not an array, which `all_results.extend` would not
treat as a record list). -/
def getResults (page : Json) : Option (List Json) :=
  match page with
  | .obj fields =>
    match fields.lookup "results" with
    | none => some []
    | some (.arr xs) => some xs
    | some _ => none
  | _ => none

/-- The next-page cursor (etl.py line 97 together with the `while next_url:`
condition on line 91): a non-empty string continues the walk; an absent,
null, or empty-string `next` terminates it.  Truthy non-string cursors are
outside the modelled domain (they would be passed to `fetch_data` as a
non-URL) and are mapped to `none` as well; no claim exercises them. -/
def getNext (page : Json) : Option String :=
  match page with
  | .obj fields =>
    match fields.lookup "next" with
    | some (.str s) => if s == "" then none else some s
    | _ => none
  | _ => none

/-- Loop of `fetch_vehicles_paginated` (etl.py lines 88-98), indexed by
fuel: the result is `none` when the walk does not finish within `fuel`
iterations (the Python loop would still be running) or leaves the modelled
JSON domain. -/
def fvpAux (env : Env) : Nat → Option String → List Json → CacheState →
    Option (Except FetchError (List Json) × CacheState)
  | _, none, acc, st => some (.ok acc, st)
  | 0, some _, _, _ => none
  | fuel + 1, some u, acc, st =>
    match cached_get env (vehiclesKey u) u st with
    | (.error e, st') => some (.error e, st')
    | (.ok page, st') =>
      match getResults page with
      | none => none
      | some rs => fvpAux env fuel (getNext page) (acc ++ rs) st'

/-- `fetch_vehicles_paginated` (etl.py lines 77-99): `next_url = url` and
loop while the cursor is truthy; the page's `results` are concatenated in
page order and each page is fetched through `cached_get` under the key
`"vehicles_data_" ++ url`. -/
def fetch_vehicles_paginated (env : Env) (fuel : Nat) (url : String)
    (st : CacheState) : Option (Except FetchError (List Json) × CacheState) :=
  fvpAux env fuel (if url == "" then none else some url) [] st

/-- The finite page chain the walker visits starting from a URL: the
ordered list of (page URL, page) pairs where each page is the fetch result
for its URL, each non-final page's cursor names the next entry's URL, and
the final page's cursor is empty/absent. -/
inductive ChainFrom (env : Env) : String → List (String × Json) → Prop where
  | last (u : String) (p : Json) (hf : env.fetch u = .ok p)
      (hn : getNext p = none) : ChainFrom env u [(u, p)]
  | cons (u : String) (p : Json) (u' : String) (rest : List (String × Json))
      (hf : env.fetch u = .ok p) (hn : getNext p = some u')
      (ht : ChainFrom env u' rest) : ChainFrom env u ((u, p) :: rest)

/-- Results of one page, with the walker's default for a missing field. -/
def pageResultsD (p : Json) : List Json := (getResults p).getD []

/-- Concatenation of all pages' results in page order. -/
def chainResults (chain : List (String × Json)) : List Json :=
  (chain.map (fun x => pageResultsD x.2)).join

/-- Neither cache tier holds any of the chain's page keys yet. -/
def FreshFor (st : CacheState) (chain : List (String × Json)) : Prop :=
  ∀ x ∈ chain, st.inproc.lookup (vehiclesKey x.1) = none ∧
    st.redis.lookup (vehiclesKey x.1) = none

/-- The cache state after a miss that fetched `j` and stored it under
`cacheKey` (a possibly failing shared-cache write, then the process-local
store, with both counters advanced). -/
def afterFetch (env : Env) (cacheKey : String) (j : Json) (st : CacheState) :
    CacheState :=
  { st with inproc := (cacheKey, j) :: st.inproc,
            redis := if env.setOk cacheKey then (cacheKey, jsonDumps j) :: st.redis
                     else st.redis,
            fetches := st.fetches + 1,
            redisTrips := st.redisTrips + 1 }

/-- Exact outcome of `cached_get` on a key absent from both tiers with a
successful fetch. -/
theorem cached_get_miss_fetch (env : Env) (cacheKey url : String) (st : CacheState)
    (j : Json)
    (hmiss : st.inproc.lookup cacheKey = none)
    (hconn : env.connectOk = true)
    (hget : env.getRaises cacheKey = false)
    (hredis : st.redis.lookup cacheKey = none)
    (hf : env.fetch url = .ok j) :
    cached_get env cacheKey url st = (.ok j, afterFetch env cacheKey j st) := by
  cases hs : env.setOk cacheKey <;>
    simp [cached_get, fetchAndStore, afterFetch, hmiss, hconn, hget, hredis, hf, hs]

/-- Main induction for C6: walking a fresh, nodup, well-formed chain
appends the chain's results to the accumulator and performs exactly one
HTTP fetch per page. -/
theorem fvpAux_chain (env : Env) (u : String) (chain : List (String × Json))
    (hch : ChainFrom env u chain) (hconn : env.connectOk = true) :
    ∀ fuel acc st, chain.length ≤ fuel →
      (∀ x ∈ chain, env.getRaises (vehiclesKey x.1) = false) →
      (∀ x ∈ chain, (getResults x.2).isSome = true) →
      FreshFor st chain →
      (chain.map Prod.fst).Nodup →
      ∃ st', fvpAux env fuel (some u) acc st =
          some (.ok (acc ++ chainResults chain), st') ∧
        st'.fetches = st.fetches + chain.length := by
  induction hch with
  | last u p hf hn =>
    intro fuel acc st hfuel hraise hwf hfresh _
    cases fuel with
    | zero => simp at hfuel
    | succ f =>
      obtain ⟨hi, hr⟩ := hfresh (u, p) (by simp)
      have hcg := cached_get_miss_fetch env (vehiclesKey u) u st p hi hconn
        (hraise (u, p) (by simp)) hr hf
      obtain ⟨rs, hrs0⟩ := Option.isSome_iff_exists.mp (hwf (u, p) (by simp))
      have hrs : getResults p = some rs := hrs0
      refine ⟨afterFetch env (vehiclesKey u) p st, ?_, ?_⟩
      · simp only [fvpAux, hcg, hrs, hn]
        simp [chainResults, pageResultsD, hrs]
      · simp [afterFetch]
  | cons u p u' rest hf hn _ ih =>
    intro fuel acc st hfuel hraise hwf hfresh hnd
    cases fuel with
    | zero => simp at hfuel
    | succ f =>
      obtain ⟨hi, hr⟩ := hfresh (u, p) (by simp)
      have hcg := cached_get_miss_fetch env (vehiclesKey u) u st p hi hconn
        (hraise (u, p) (by simp)) hr hf
      obtain ⟨rs, hrs0⟩ := Option.isSome_iff_exists.mp (hwf (u, p) (by simp))
      have hrs : getResults p = some rs := hrs0
      have hnd1 : (u :: rest.map Prod.fst).Nodup := by
        simpa only [List.map_cons] using hnd
      have hu_notin : u ∉ rest.map Prod.fst := (List.nodup_cons.mp hnd1).1
      have hfresh' : FreshFor (afterFetch env (vehiclesKey u) p st) rest := by
        intro x hx
        obtain ⟨hxi, hxr⟩ := hfresh x (by simp [hx])
        have hxu : x.1 ≠ u := by
          intro hh
          exact hu_notin (hh ▸ List.mem_map_of_mem Prod.fst hx)
        have hkey : vehiclesKey x.1 ≠ vehiclesKey u :=
          fun hh => hxu (append_left_cancel_str hh)
        constructor
        · show ((vehiclesKey u, p) :: st.inproc).lookup (vehiclesKey x.1) = none
          rw [lookup_cons_ne st.inproc p hkey]
          exact hxi
        · show (if env.setOk (vehiclesKey u) = true then
              (vehiclesKey u, jsonDumps p) :: st.redis
            else st.redis).lookup (vehiclesKey x.1) = none
          by_cases hs : env.setOk (vehiclesKey u) = true
          · rw [if_pos hs, lookup_cons_ne st.redis (jsonDumps p) hkey]
            exact hxr
          · rw [if_neg hs]
            exact hxr
      have hfuel' : rest.length ≤ f := by
        simp only [List.length_cons] at hfuel
        omega
      obtain ⟨st', hrun, hfet⟩ := ih f (acc ++ rs)
        (afterFetch env (vehiclesKey u) p st) hfuel'
        (fun x hx => hraise x (by simp [hx]))
        (fun x hx => hwf x (by simp [hx]))
        hfresh'
        ((List.nodup_cons.mp hnd1).2)
      refine ⟨st', ?_, ?_⟩
      · simp only [fvpAux, hcg, hrs, hn]
        rw [hrun]
        simp [chainResults, pageResultsD, hrs]
      · rw [hfet]
        simp [afterFetch]
        omega

/-- C6: for any finite page chain ending in an empty/absent cursor — pages
well formed, page URLs pairwise distinct, caches fresh for them, shared
cache reachable — the walker returns the concatenation of all pages'
`results` arrays in page order and performs exactly one HTTP fetch per
page, each through the cache key `"vehicles_data_" ++ page URL`
(`vehiclesKey`); with fuel at least the chain length the fuel bound is not
the terminating event. -/
theorem claim_C6_pagination_concatenates (env : Env) (u : String)
    (chain : List (String × Json)) (st : CacheState) (fuel : Nat)
    (hch : ChainFrom env u chain)
    (hu : u ≠ "")
    (hconn : env.connectOk = true)
    (hraise : ∀ x ∈ chain, env.getRaises (vehiclesKey x.1) = false)
    (hwf : ∀ x ∈ chain, (getResults x.2).isSome = true)
    (hfresh : FreshFor st chain)
    (hnd : (chain.map Prod.fst).Nodup)
    (hfuel : chain.length ≤ fuel) :
    ∃ st', fetch_vehicles_paginated env fuel u st =
        some (.ok (chainResults chain), st') ∧
      st'.fetches = st.fetches + chain.length := by
  have hu' : (u == "") = false := by simp [hu]
  have h := fvpAux_chain env u chain hch hconn fuel [] st hfuel hraise hwf hfresh hnd
  simpa [fetch_vehicles_paginated, hu'] using h

/-- The single Speeder page of the spec's end-to-end example: its `next` is
null. -/
def speederPage : Json :=
  Json.obj [("results", Json.arr [Json.obj [("name", Json.str "Speeder")]]),
            ("next", Json.null)]

/-- Environment whose fetcher returns the Speeder page for every URL. -/
def envSp : Env :=
  { connectOk := true
    getRaises := fun _ => false
    setOk := fun _ => true
    fetch := fun _ => .ok speederPage }

/-- Witness for C6: a one-page chain whose `next` is null returns exactly
that page's results after exactly one fetch. -/
theorem claim_C6_witness :
    ∃ st', fetch_vehicles_paginated envSp 1 "http://sw/api/vehicles" stEmpty =
        some (.ok (chainResults [("http://sw/api/vehicles", speederPage)]), st') ∧
      st'.fetches = stEmpty.fetches + 1 :=
  claim_C6_pagination_concatenates envSp "http://sw/api/vehicles"
    [("http://sw/api/vehicles", speederPage)] stEmpty 1
    (ChainFrom.last "http://sw/api/vehicles" speederPage rfl rfl)
    (by decide) rfl
    (fun x hx => rfl)
    (fun x hx => by rw [List.mem_singleton.mp hx]; rfl)
    (fun x hx => ⟨rfl, rfl⟩)
    (List.nodup_singleton _)
    (by decide)

/-! Non-termination of the walker on a cyclic `next` chain (C7). -/

/-- What `next_url` becomes after visiting `u`: the cursor of the page the
fetcher yields for `u` (under `Compat` below, a cached page for `u` is that
same page, so serving from either tier gives the same cursor); a fetch
failure ends the loop by raising instead. -/
def cursorStep (env : Env) (u : String) : Option String :=
  match env.fetch u with
  | .ok p => getNext p
  | .error _ => none

/-- Option-lifted cursor step; `none` (loop over / aborted) is absorbing. -/
def cursorStepO (env : Env) : Option String → Option String
  | none => none
  | some u => cursorStep env u

/-- The cursor after `n` loop iterations starting from `u`. -/
def cursorIter (env : Env) (u : String) (n : Nat) : Option String :=
  (cursorStepO env)^[n] (some u)

/-- Cache contents consistent with the fetcher on pagination keys: every
process-local entry and every parseable shared entry under `vehiclesKey u`
is exactly the fetch result for `u`.  The empty state is compatible and
`cached_get` preserves compatibility. -/
def Compat (env : Env) (st : CacheState) : Prop :=
  (∀ u j, st.inproc.lookup (vehiclesKey u) = some j → env.fetch u = .ok j) ∧
  (∀ u raw j, st.redis.lookup (vehiclesKey u) = some raw → jsonLoads raw = some j →
    env.fetch u = .ok j)

theorem compat_afterFetch (env : Env) (u : String) (p : Json) (st : CacheState)
    (hcomp : Compat env st) (hf : env.fetch u = .ok p) :
    Compat env (afterFetch env (vehiclesKey u) p st) := by
  constructor
  · intro u' j hlk
    have hlk' : ((vehiclesKey u, p) :: st.inproc).lookup (vehiclesKey u') = some j := hlk
    by_cases hk : vehiclesKey u' = vehiclesKey u
    · have huu : u' = u := append_left_cancel_str hk
      subst huu
      rw [lookup_cons_self] at hlk'
      injection hlk' with h
      subst h
      exact hf
    · rw [lookup_cons_ne st.inproc p hk] at hlk'
      exact hcomp.1 u' j hlk'
  · intro u' raw j hlk hld
    have hlk' : (if env.setOk (vehiclesKey u) = true then
        (vehiclesKey u, jsonDumps p) :: st.redis
      else st.redis).lookup (vehiclesKey u') = some raw := hlk
    by_cases hs : env.setOk (vehiclesKey u) = true
    · rw [if_pos hs] at hlk'
      by_cases hk : vehiclesKey u' = vehiclesKey u
      · have huu : u' = u := append_left_cancel_str hk
        subst huu
        rw [lookup_cons_self] at hlk'
        injection hlk' with h
        subst h
        simp only [jsonDumps, jsonLoads, Option.some.injEq] at hld
        rw [← hld]
        exact hf
      · rw [lookup_cons_ne st.redis (jsonDumps p) hk] at hlk'
        exact hcomp.2 u' raw j hlk' hld
    · rw [if_neg hs] at hlk'
      exact hcomp.2 u' raw j hlk' hld

theorem compat_insert_trip (env : Env) (u : String) (p : Json) (st : CacheState)
    (hcomp : Compat env st) (hf : env.fetch u = .ok p) :
    Compat env { st with inproc := (vehiclesKey u, p) :: st.inproc,
                         redisTrips := st.redisTrips + 1 } := by
  constructor
  · intro u' j hlk
    have hlk' : ((vehiclesKey u, p) :: st.inproc).lookup (vehiclesKey u') = some j := hlk
    by_cases hk : vehiclesKey u' = vehiclesKey u
    · have huu : u' = u := append_left_cancel_str hk
      subst huu
      rw [lookup_cons_self] at hlk'
      injection hlk' with h
      subst h
      exact hf
    · rw [lookup_cons_ne st.inproc p hk] at hlk'
      exact hcomp.1 u' j hlk'
  · intro u' raw j hlk hld
    exact hcomp.2 u' raw j hlk hld

/-- Under `Compat`, `cached_get` on a pagination key returns exactly the
fetched page (from whichever tier serves it) and preserves `Compat`. -/
theorem cached_get_compat (env : Env) (u : String) (st : CacheState) (p : Json)
    (hcomp : Compat env st) (hconn : env.connectOk = true)
    (hget : env.getRaises (vehiclesKey u) = false) (hf : env.fetch u = .ok p) :
    ∃ st', cached_get env (vehiclesKey u) u st = (.ok p, st') ∧ Compat env st' := by
  rcases hl : st.inproc.lookup (vehiclesKey u) with _ | j
  · rcases hr : st.redis.lookup (vehiclesKey u) with _ | raw
    · exact ⟨afterFetch env (vehiclesKey u) p st,
        cached_get_miss_fetch env (vehiclesKey u) u st p hl hconn hget hr hf,
        compat_afterFetch env u p st hcomp hf⟩
    · have hfs : fetchAndStore env (vehiclesKey u) u
          { st with redisTrips := st.redisTrips + 1 } =
          (.ok p, afterFetch env (vehiclesKey u) p st) := by
        cases hs : env.setOk (vehiclesKey u) <;>
          simp [fetchAndStore, afterFetch, hf, hs]
      cases htr : raw.truthy
      · have heq : cached_get env (vehiclesKey u) u st =
            fetchAndStore env (vehiclesKey u) u
              { st with redisTrips := st.redisTrips + 1 } := by
          simp [cached_get, hl, hconn, hget, hr, htr]
        exact ⟨afterFetch env (vehiclesKey u) p st, by rw [heq, hfs],
          compat_afterFetch env u p st hcomp hf⟩
      · rcases hld : jsonLoads raw with _ | j
        · have heq : cached_get env (vehiclesKey u) u st =
              fetchAndStore env (vehiclesKey u) u
                { st with redisTrips := st.redisTrips + 1 } := by
            simp [cached_get, hl, hconn, hget, hr, htr, hld]
          exact ⟨afterFetch env (vehiclesKey u) p st, by rw [heq, hfs],
            compat_afterFetch env u p st hcomp hf⟩
        · have hj := hcomp.2 u raw j hr hld
          rw [hf] at hj
          injection hj with hj
          subst hj
          have hres : cached_get env (vehiclesKey u) u st =
              (.ok p, { st with inproc := (vehiclesKey u, p) :: st.inproc,
                                redisTrips := st.redisTrips + 1 }) := by
            simp [cached_get, hl, hconn, hget, hr, htr, hld]
          exact ⟨_, hres, compat_insert_trip env u p st hcomp hf⟩
  · have hj := hcomp.1 u j hl
    rw [hf] at hj
    injection hj with hj
    subst hj
    exact ⟨st, cached_get_hit env (vehiclesKey u) u st p hl, hcomp⟩

theorem cursorIter_succ (env : Env) (u : String) (n : Nat) :
    cursorIter env u (n + 1) = cursorStepO env (cursorIter env u n) := by
  simp [cursorIter, Function.iterate_succ_apply']

theorem cursorIter_shift (env : Env) (u : String) (a b : Nat) :
    cursorIter env u (a + b) = (cursorStepO env)^[a] (cursorIter env u b) := by
  simp [cursorIter, Function.iterate_add_apply]

theorem cursorIter_none_absorb (env : Env) (u : String) (n k : Nat)
    (h : cursorIter env u n = none) : cursorIter env u (n + k) = none := by
  induction k with
  | zero => exact h
  | succ m ih =>
    have he : n + (m + 1) = (n + m) + 1 := rfl
    rw [he, cursorIter_succ, ih]
    rfl

/-- A `next` chain that revisits a URL never reaches an empty cursor. -/
theorem cursorIter_no_end_of_cycle (env : Env) (u : String) (i j : Nat) (w : String)
    (hij : i < j) (hi : cursorIter env u i = some w)
    (hj : cursorIter env u j = some w) :
    ∀ n, cursorIter env u n ≠ none := by
  have hrep : ∀ m, cursorIter env u (i + m * (j - i)) = some w := by
    intro m
    induction m with
    | zero => simpa using hi
    | succ m ih =>
      have h1 : i + (m + 1) * (j - i) = (j - i) + (i + m * (j - i)) := by
        rw [Nat.succ_mul]
        omega
      rw [h1, cursorIter_shift, ih]
      have h2 : j - i + i = j := by omega
      calc (cursorStepO env)^[j - i] (some w)
          = (cursorStepO env)^[j - i] (cursorIter env u i) := by rw [hi]
        _ = cursorIter env u (j - i + i) := (cursorIter_shift env u (j - i) i).symm
        _ = some w := by rw [h2, hj]
  intro n hn
  have hone : 1 ≤ j - i := by omega
  have hm : n ≤ i + n * (j - i) := by
    have h3 : n * 1 ≤ n * (j - i) := Nat.mul_le_mul_left n hone
    simp only [Nat.mul_one] at h3
    omega
  have habs := cursorIter_none_absorb env u n (i + n * (j - i) - n) hn
  rw [show n + (i + n * (j - i) - n) = i + n * (j - i) from by omega] at habs
  rw [hrep n] at habs
  exact Option.noConfusion habs

/-- If the cursor chain never ends, the walker exhausts any fuel. -/
theorem fvpAux_noend (env : Env) (u : String)
    (hconn : env.connectOk = true)
    (hget : ∀ v : String, env.getRaises (vehiclesKey v) = false)
    (hwf : ∀ v p, env.fetch v = .ok p → (getResults p).isSome = true)
    (hNoEnd : ∀ n, cursorIter env u n ≠ none) :
    ∀ fuel n v acc st, cursorIter env u n = some v → Compat env st →
      fvpAux env fuel (some v) acc st = none := by
  intro fuel
  induction fuel with
  | zero =>
    intro n v acc st _ _
    rfl
  | succ f ih =>
    intro n v acc st hv hcomp
    have hstep : cursorStepO env (some v) ≠ none := by
      have h1 : cursorIter env u (n + 1) = cursorStepO env (some v) := by
        rw [cursorIter_succ, hv]
      rw [← h1]
      exact hNoEnd (n + 1)
    rcases hfv : env.fetch v with e | p
    · exact absurd (by simp [cursorStepO, cursorStep, hfv]) hstep
    · obtain ⟨st', hcg, hcomp'⟩ := cached_get_compat env v st p hcomp hconn (hget v) hfv
      obtain ⟨rs, hrs⟩ := Option.isSome_iff_exists.mp (hwf v p hfv)
      rcases hn : getNext p with _ | v'
      · exact absurd (by simp [cursorStepO, cursorStep, hfv, hn]) hstep
      · simp only [fvpAux, hcg, hrs, hn]
        exact ih (n + 1) v' (acc ++ rs) st'
          (by rw [cursorIter_succ, hv]; simp [cursorStepO, cursorStep, hfv, hn])
          hcomp'

/-- C7: the walker has no cycle or step-count guard.  Whenever the chain of
`next` cursors revisits a URL (so, by `cursorIter_no_end_of_cycle`, it
never reaches an empty/absent cursor), `fetch_vehicles_paginated` fails to
finish within any fuel bound whatsoever — the Python loop never terminates;
termination requires the chain to be finite and end in an empty/absent
cursor (which is claim C6's hypothesis). -/
theorem claim_C7_cycle_divergence (env : Env) (u : String) (st : CacheState)
    (hu : u ≠ "")
    (hconn : env.connectOk = true)
    (hget : ∀ v : String, env.getRaises (vehiclesKey v) = false)
    (hwf : ∀ v p, env.fetch v = .ok p → (getResults p).isSome = true)
    (hcomp : Compat env st)
    (hcycle : ∃ i j w, i < j ∧ cursorIter env u i = some w ∧
      cursorIter env u j = some w) :
    ∀ fuel, fetch_vehicles_paginated env fuel u st = none := by
  obtain ⟨i, j, w, hij, hi, hj⟩ := hcycle
  intro fuel
  have hNoEnd := cursorIter_no_end_of_cycle env u i j w hij hi hj
  have h := fvpAux_noend env u hconn hget hwf hNoEnd fuel 0 u [] st rfl hcomp
  have hu2 : (u == "") = false := by simp [hu]
  simpa [fetch_vehicles_paginated, hu2] using h

/-- A page whose `next` points back at its own URL. -/
def pageLoop : Json :=
  Json.obj [("results", Json.arr []), ("next", Json.str "loop")]

/-- Environment whose fetcher returns the self-looping page for every URL. -/
def envLoop : Env :=
  { connectOk := true
    getRaises := fun _ => false
    setOk := fun _ => true
    fetch := fun _ => .ok pageLoop }

/-- Witness for C7: on the self-looping page the walker exhausts a concrete
fuel budget of 100 iterations without terminating. -/
theorem claim_C7_witness :
    fetch_vehicles_paginated envLoop 100 "loop" stEmpty = none :=
  claim_C7_cycle_divergence envLoop "loop" stEmpty (by decide) rfl
    (fun _ => rfl)
    (fun v p hp => by
      injection hp with h
      rw [← h]
      rfl)
    ⟨fun v jv h => by simp [stEmpty, List.lookup] at h,
     fun v raw jv h _ => by simp [stEmpty, List.lookup] at h⟩
    ⟨0, 1, "loop", by decide, rfl, rfl⟩ 100

end NebulaBridge
